import Mathlib

/-!
Shallow embedding of the ESP32 furnace controller
(`src/main.py`, `src/modules/temperature.py`, `src/config.py`).

Temperatures are rationals (the Python floats involved are exact
quarter-degree values and arithmetic means of them, so ℚ is faithful
for the comparisons the claims are about).
Digital output lines are booleans (`true` = electrical high level).
-/

namespace Furnace

/-! ### Configuration constants (`src/config.py`) -/

def TEMP_AMBIENTE : ℚ := 25

def HISTERESE : ℚ := 2

def TEMP_FILTER_SIZE : ℕ := 5

def FASE1_TIMEOUT : ℚ := 600

def TEMP_TOLERANCE : ℚ := 1

def DEFAULT_TARGET_TEMP : ℚ := 100

def DEFAULT_DURATION : ℚ := 300

def MAX_TEMP_SEGURANCA : ℚ := 350

def MAX_CICLOS_ERRO : ℕ := 3

def RELAY_ACTIVE_HIGH : Bool := true

/-! ### Bit-level MAX6675 word assembly and decoding

`main.py` `read_temperature` and `temperature.py` `read_temperature_raw`
both assemble the 16 sampled bits most-significant-first with
`raw = (raw << 1) | bit` and then decode: fault when `raw & 0x4` is set,
otherwise `(raw >> 3) * 0.25` degrees.
-/

def bitVal (b : Bool) : ℕ := if b then 1 else 0

/-- The `raw = (raw << 1) | bit` accumulation over the sampled bits. -/
def assembleWord (bits : List Bool) : ℕ :=
  bits.foldl (fun r b => (r <<< 1) ||| bitVal b) 0

/-- Decoding of the assembled 16-bit word shared by both raw-read
implementations: `None` when `raw & 0x4` is set, else `(raw >> 3) * 0.25`. -/
def decodeWord (w : ℕ) : Option ℚ :=
  if w &&& 0x4 ≠ 0 then none else some (((w >>> 3 : ℕ) : ℚ) * (1/4))

/-- Outcome of one 16-bit acquisition attempt, as seen by
`main.py` `read_temperature`: either an assembled word or an exception
raised somewhere during the exchange. -/
inductive RawOutcome where
  | word (w : ℕ)
  | exc
deriving Repr, DecidableEq

/-! ### `SimpleFurnaceController` state (`src/main.py`) -/

structure MainState where
  /-- `self.current_temp`; initialised to `TEMP_AMBIENTE`, assigned filtered
  floats afterwards.  `control_heating` tests it against `None`, so it is
  modelled as an `Option`. -/
  current_temp : Option ℚ
  heating_active : Bool
  cycle_active : Bool
  temp_history : List ℚ
  max_temp_reached : ℚ
  /-- electrical level of the relay (heater) output line -/
  relay : Bool
  /-- electrical level of the cycle-indicator LED line -/
  led : Bool
  target_temp : ℚ
  duration : ℚ
deriving Repr, DecidableEq

/-- State after `__init__` + `setup_hardware` (relay and LED driven low). -/
def initMain (target dur : ℚ) : MainState :=
  { current_temp := some TEMP_AMBIENTE
    heating_active := false
    cycle_active := false
    temp_history := []
    max_temp_reached := 0
    relay := false
    led := false
    target_temp := target
    duration := dur }

/-- `initMain` at the default setpoint. -/
def initMainDefault : MainState := initMain DEFAULT_TARGET_TEMP DEFAULT_DURATION

/-! ### `read_temperature` (`main.py` lines 73–115) -/

/-- The valid-reading tail of `read_temperature` (lines 99–111): append to the
moving-average history, evict the oldest entry past `TEMP_FILTER_SIZE`, take
the arithmetic mean, update `current_temp` and the high-water mark.
Returns the filtered value together with the new state. -/
def applyValidMain (s : MainState) (t : ℚ) : ℚ × MainState :=
  let hist0 := s.temp_history ++ [t]
  let hist := if hist0.length > TEMP_FILTER_SIZE then hist0.drop 1 else hist0
  let filtered := hist.sum / (hist.length : ℚ)
  let maxT := if filtered > s.max_temp_reached then filtered else s.max_temp_reached
  (filtered,
    { s with
      temp_history := hist
      current_temp := some filtered
      max_temp_reached := maxT })

/-- `read_temperature`: on an exception the handler returns `None` with the
state untouched; on an assembled word, decode and (when valid) run the
filter tail. -/
def read_temperature (s : MainState) (r : RawOutcome) : Option ℚ × MainState :=
  match r with
  | .exc => (none, s)
  | .word w =>
    match decodeWord w with
    | none => (none, s)
    | some t =>
      let p := applyValidMain s t
      (some p.1, p.2)

/-! ### `control_heating` (`main.py` lines 117–145)

The decision is parametrised by the fixed configuration flag
`RELAY_ACTIVE_HIGH` (a module constant in `config.py`).  Note the source:
the sensor-failure and safety branches call `self.relay.off()` directly
(line driven low, no polarity translation); only the two hysteresis
branches consult the flag. -/

structure HeatOut where
  /-- electrical level written to (or left on) the relay line -/
  relay : Bool
  heating_active : Bool
  /-- the Python return value (`False` signals a fault to `run_cycle`) -/
  ok : Bool
deriving Repr, DecidableEq

def control_heating (activeHigh : Bool) (current : Option ℚ) (target : ℚ)
    (prevRelay prevHeating : Bool) : HeatOut :=
  match current with
  | none => ⟨false, false, false⟩
  | some t =>
    if t > MAX_TEMP_SEGURANCA then ⟨false, false, false⟩
    else if t < target - HISTERESE then ⟨activeHigh, true, true⟩
    else if t > target + HISTERESE then ⟨!activeHigh, false, true⟩
    else ⟨prevRelay, prevHeating, true⟩

/-- `control_heating` as a state transformer on the controller state. -/
def controlHeatingS (activeHigh : Bool) (s : MainState) : Bool × MainState :=
  let o := control_heating activeHigh s.current_temp s.target_temp s.relay s.heating_active
  (o.ok, { s with relay := o.relay, heating_active := o.heating_active })

/-! ### `stop_cycle` (`main.py` lines 304–329)

`stop_cycle` first drives the relay and LED low and clears both flags, then
prints the final report from the resulting state, and only then attempts the
terminal display update inside `try: ... except: pass` — a raising display
leaves the controller state as already set.  `display_ok` is the flag set at
hardware setup; `displayRaises` says whether the SSD1306 calls raise. -/

def stop_cycle (s : MainState) (display_ok displayRaises : Bool) :
    MainState × Bool :=
  let s1 : MainState :=
    { s with relay := false, led := false,
             heating_active := false, cycle_active := false }
  (s1, display_ok && !displayRaises)

/-! ### `run_cycle` (`main.py` lines 198–302)

The two phase loops are driven by a schedule of ticks.  Each tick carries the
elapsed time `time.time() - phase_start` computed at the top of the iteration
and the event of the iteration: an acquisition outcome, a `KeyboardInterrupt`
delivered during the iteration/sleep, or any other exception. -/

inductive TickEvent where
  | reading (r : RawOutcome)
  | interrupt
  | error
deriving Repr, DecidableEq

structure Tick where
  elapsed : ℚ
  ev : TickEvent
deriving Repr, DecidableEq

/-- How the phase-1 (`FASE 1: AQUECIMENTO`) `while True` loop breaks. -/
inductive Phase1Exit where
  | sensorError | controlFault | targetReached | timeout
deriving Repr, DecidableEq

/-- How the phase-2 (`FASE 2: TRATAMENTO`) `while True` loop breaks. -/
inductive Phase2Exit where
  | done | sensorError | controlFault
deriving Repr, DecidableEq

/-- Result of running one phase loop: a `break` with the reason, an exception
propagating out of the loop, or the tick schedule running out (the source
loop would keep iterating — left undetermined). -/
inductive PhaseRes (β : Type) where
  | brk (b : β) (s : MainState)
  | exn (s : MainState)
  | out (s : MainState)
deriving Repr, DecidableEq

/-- Phase-1 loop (`main.py` lines 216–254): read, control, status/display/log
(no controller-state effect — their failures are swallowed internally), then
the target-reached check, then the timeout check. -/
def phase1Loop (activeHigh : Bool) (s : MainState) :
    List Tick → PhaseRes Phase1Exit
  | [] => .out s
  | t :: rest =>
    match t.ev with
    | .interrupt => .exn s
    | .error => .exn s
    | .reading r =>
      let p := read_temperature s r
      match p.1 with
      | none => .brk .sensorError p.2
      | some temp =>
        let c := controlHeatingS activeHigh p.2
        if !c.1 then .brk .controlFault c.2
        else if |temp - c.2.target_temp| ≤ TEMP_TOLERANCE then
          .brk .targetReached c.2
        else if t.elapsed > FASE1_TIMEOUT then .brk .timeout c.2
        else phase1Loop activeHigh c.2 rest

/-- Phase-2 loop (`main.py` lines 261–294): duration check first, then read,
then control, then status/display/log. -/
def phase2Loop (activeHigh : Bool) (s : MainState) :
    List Tick → PhaseRes Phase2Exit
  | [] => .out s
  | t :: rest =>
    match t.ev with
    | .interrupt => .exn s
    | .error => .exn s
    | .reading r =>
      if t.elapsed ≥ s.duration then .brk .done s
      else
        let p := read_temperature s r
        match p.1 with
        | none => .brk .sensorError p.2
        | some _ =>
          let c := controlHeatingS activeHigh p.2
          if !c.1 then .brk .controlFault c.2
          else phase2Loop activeHigh c.2 rest

/-- Cycle initialisation (`main.py` lines 205–209): set the active flag,
light the LED, zero the high-water mark.  Nothing else is touched. -/
def startCycle (s : MainState) : MainState :=
  { s with cycle_active := true, led := true, max_temp_reached := 0 }

/-- What `run_cycle` went through: how phase 1 ended (`none` = exception),
whether the phase-2 loop was entered, and how phase 2 ended. -/
structure CycleTrace where
  phase1 : Option Phase1Exit
  enteredPhase2 : Bool
  phase2 : Option Phase2Exit
deriving Repr, DecidableEq

/-- `run_cycle`: initialise, run phase 1; **every** `break` of the phase-1
loop falls through into phase 2 (there is no abort flag in the source); any
exception jumps to the handlers; the `finally` block always runs
`stop_cycle`.  `none` when a schedule runs out (undetermined suffix). -/
def run_cycle (activeHigh : Bool) (s : MainState) (sched1 sched2 : List Tick)
    (display_ok displayRaises : Bool) : Option (MainState × CycleTrace) :=
  let s0 := startCycle s
  match phase1Loop activeHigh s0 sched1 with
  | .out _ => none
  | .exn s1 =>
    some ((stop_cycle s1 display_ok displayRaises).1, ⟨none, false, none⟩)
  | .brk e1 s1 =>
    match phase2Loop activeHigh s1 sched2 with
    | .out _ => none
    | .exn s2 =>
      some ((stop_cycle s2 display_ok displayRaises).1,
            ⟨some e1, true, none⟩)
    | .brk e2 s2 =>
      some ((stop_cycle s2 display_ok displayRaises).1,
            ⟨some e1, true, some e2⟩)

/-! ### `TemperatureController` (`src/modules/temperature.py`)

This class keeps its own error accounting (`error_count`,
`last_valid_temp`).  The chip-select line is tracked explicitly so its level
on each exit path of `read_temperature_raw` is visible; `cs = true` is the
electrically high (deasserted) level, `cs.off()` asserts the MAX6675. -/

structure TCState where
  /-- chip-select line level; `true` = high = deasserted -/
  cs : Bool
  /-- heater drive line of this module -/
  resistencia : Bool
  temp_history : List ℚ
  max_temp_reached : ℚ
  heating_active : Bool
  error_count : ℕ
  last_valid_temp : ℚ
deriving Repr, DecidableEq

/-- State after `TemperatureController.__init__`. -/
def initTC : TCState :=
  { cs := true
    resistencia := false
    temp_history := []
    max_temp_reached := 0
    heating_active := false
    error_count := 0
    last_valid_temp := TEMP_AMBIENTE }

namespace TCState

/-- One acquisition attempt as the hardware presents it: either the 16 bits
sampled by a completed exchange, or an exception raised partway through the
exchange (after `cs.off()`, before `cs.on()`). -/
inductive Acq where
  | exchange (bits : List Bool)
  | raise
deriving Repr, DecidableEq

/-- `read_temperature_raw` (lines 46–72).  On a completed exchange:
chip-select is asserted then deasserted, the word decoded; a thermocouple
fault (`raw & 0x4`) returns `None` **without touching** `error_count`; a
valid word resets `error_count` to 0.  On an exception partway through, the
handler increments `error_count` and returns `None`; no `finally` restores
chip-select, so it stays at the asserted (low) level. -/
def read_temperature_raw (s : TCState) (a : Acq) : Option ℚ × TCState :=
  match a with
  | .raise => (none, { s with cs := false, error_count := s.error_count + 1 })
  | .exchange bits =>
    let s1 := { s with cs := true }
    match decodeWord (assembleWord bits) with
    | none => (none, s1)
    | some t => (some t, { s1 with error_count := 0 })

/-- `read_temperature_filtered` (lines 74–98): on a valid raw value run the
moving-average filter and update `last_valid_temp` and the high-water mark;
on `None`, fall back to `last_valid_temp` while `error_count` is below
`MAX_CICLOS_ERRO`, otherwise return `None`. -/
def read_temperature_filtered (s : TCState) (a : Acq) : Option ℚ × TCState :=
  let p := s.read_temperature_raw a
  match p.1 with
  | some t =>
    let hist0 := p.2.temp_history ++ [t]
    let hist := if hist0.length > TEMP_FILTER_SIZE then hist0.drop 1 else hist0
    let filtered := hist.sum / (hist.length : ℚ)
    let maxT :=
      if filtered > p.2.max_temp_reached then filtered else p.2.max_temp_reached
    (some filtered,
      { p.2 with
        temp_history := hist
        last_valid_temp := filtered
        max_temp_reached := maxT })
  | none =>
    if p.2.error_count < MAX_CICLOS_ERRO then (some p.2.last_valid_temp, p.2)
    else (none, p.2)

/-- `emergency_stop` (lines 133–138): heater line low, flag cleared. -/
def emergency_stop (s : TCState) : TCState :=
  { s with resistencia := false, heating_active := false }

end TCState

/-! ### Derived iteration helpers over the embedded steps -/

/-- Run `read_temperature_filtered` over a list of acquisition outcomes,
collecting the returned values. -/
def filteredRun (s : TCState) : List TCState.Acq → List (Option ℚ) × TCState
  | [] => ([], s)
  | a :: rest =>
    let p := s.read_temperature_filtered a
    let q := filteredRun p.2 rest
    (p.1 :: q.1, q.2)

/-- Fold the valid-reading filter step of `main.py` over a list of raw
temperatures. -/
def processAll (s : MainState) (ts : List ℚ) : MainState :=
  ts.foldl (fun s t => (applyValidMain s t).2) s

/-- The filtered outputs produced along a list of valid raw temperatures. -/
def outputsMain (s : MainState) : List ℚ → List ℚ
  | [] => []
  | t :: ts =>
    let p := applyValidMain s t
    p.1 :: outputsMain p.2 ts

/-- Whether the relay coil is energized given the configured polarity and the
line level: an active-high relay energizes on a high line, an active-low
relay on a low line. -/
def energized (activeHigh line : Bool) : Bool := line == activeHigh

/-- 16 sampled bits assembling (MSB-first) to the word `0x4`: an
open-thermocouple fault report. -/
def faultBits : List Bool := List.replicate 13 false ++ [true, false, false]

/-- Phase-1 schedule holding 50 °C (word `1600`) with the ramp clock at
601 s — the spec's ramp-timeout scenario. -/
def rampTimeoutSched1 : List Tick := [⟨601, .reading (.word 1600)⟩]

/-- Phase-2 schedule: one more 50 °C reading, then the soak clock passes
the 300 s default duration. -/
def rampTimeoutSched2 : List Tick :=
  [⟨0, .reading (.word 1600)⟩, ⟨301, .reading (.word 1600)⟩]

/-! ### Helper lemmas -/

theorem two_mul_lor_one (x : ℕ) : 2 * x ||| 1 = 2 * x + 1 := by
  apply Nat.eq_of_testBit_eq
  intro i
  cases i with
  | zero =>
    simp [Nat.testBit_or, Nat.mul_add_mod, Nat.add_mod, Nat.mul_mod_right]
  | succ j =>
    rw [Nat.testBit_or, Nat.testBit_add_one, Nat.testBit_add_one, Nat.testBit_add_one]
    have h1 : 2 * x / 2 = x := by omega
    have h2 : (2 * x + 1) / 2 = x := by omega
    have h3 : (1 : ℕ) / 2 = 0 := by norm_num
    rw [h1, h2, h3, Nat.zero_testBit]
    simp

/-- Appending a sampled bit shifts the assembled word left and puts the bit
into the least-significant position: the first sampled bit is the most
significant. -/
theorem assembleWord_append (bits : List Bool) (b : Bool) :
    assembleWord (bits ++ [b]) = 2 * assembleWord bits + bitVal b := by
  unfold assembleWord
  rw [List.foldl_append]
  simp only [List.foldl]
  cases b
  · simp [bitVal, Nat.shiftLeft_eq]
    ring
  · simp only [bitVal, Nat.shiftLeft_eq, pow_one, if_true]
    rw [Nat.mul_comm]
    exact two_mul_lor_one _

/-! ### Claim theorems -/

/-- C6: the decoder returns a sensor error exactly when bit 2 (mask `0x4`)
of the word assembled most-significant-bit-first is set, and otherwise the
temperature `(word >> 3) * 0.25` °C; the raw-read on a completed exchange
returns exactly the decode of the assembled word. -/
theorem decode_fault_bit_and_scale (w : ℕ) (bits : List Bool) (b : Bool) (s : TCState) :
    (decodeWord w = none ↔ w.testBit 2 = true)
    ∧ (w.testBit 2 = false → decodeWord w = some (((w >>> 3 : ℕ) : ℚ) * (1/4)))
    ∧ assembleWord (bits ++ [b]) = 2 * assembleWord bits + bitVal b
    ∧ (s.read_temperature_raw (.exchange bits)).1 = decodeWord (assembleWord bits) := by
  have hand : w &&& 4 = (w.testBit 2).toNat * 4 := by
    have h := Nat.and_two_pow w 2
    norm_num at h
    exact h
  have hiff : (w &&& 4 ≠ 0) ↔ w.testBit 2 = true := by
    rw [hand]; cases w.testBit 2 <;> simp
  refine ⟨?_, ?_, assembleWord_append bits b, ?_⟩
  · rw [decodeWord, ← hiff]
    by_cases h : w &&& 4 ≠ 0
    · simp [h]
    · simp [h]
  · intro hb
    rw [decodeWord]
    simp [hand, hb]
  · rw [TCState.read_temperature_raw]
    cases hd : decodeWord (assembleWord bits) <;> simp [hd]

/-- C6 witness: word 4 (fault bit set) decodes to an error; word 1600
decodes to 50 °C. -/
theorem decode_fault_bit_and_scale_witness :
    decodeWord 4 = none ∧ decodeWord 1600 = some 50 := by
  constructor
  · exact (decode_fault_bit_and_scale 4 [] false initTC).1.mpr (by decide)
  · have h := (decode_fault_bit_and_scale 1600 [] false initTC).2.1 (by decide)
    rw [h, show (1600:ℕ) >>> 3 = 200 from by decide]
    norm_num

/-- C3: the heater decision evaluates, in order: missing temperature → OFF
(with the fault return value); strictly above the 350 °C ceiling → OFF plus
fault, regardless of target or previous command; below `target − margin` →
ON; above `target + margin` → OFF; inside the dead band the previous relay
line and previous command are held unchanged. -/
theorem control_heating_decision_order (flag : Bool) (target : ℚ)
    (prevRelay prevHeating : Bool) (t : ℚ) :
    control_heating flag none target prevRelay prevHeating = ⟨false, false, false⟩
    ∧ (MAX_TEMP_SEGURANCA < t →
        control_heating flag (some t) target prevRelay prevHeating = ⟨false, false, false⟩)
    ∧ (t ≤ MAX_TEMP_SEGURANCA → t < target - HISTERESE →
        control_heating flag (some t) target prevRelay prevHeating = ⟨flag, true, true⟩)
    ∧ (t ≤ MAX_TEMP_SEGURANCA → target + HISTERESE < t →
        control_heating flag (some t) target prevRelay prevHeating = ⟨!flag, false, true⟩)
    ∧ (t ≤ MAX_TEMP_SEGURANCA → target - HISTERESE ≤ t → t ≤ target + HISTERESE →
        control_heating flag (some t) target prevRelay prevHeating
          = ⟨prevRelay, prevHeating, true⟩) := by
  refine ⟨rfl, ?_, ?_, ?_, ?_⟩
  · intro h
    simp [control_heating, h]
  · intro h1 h2
    simp [control_heating, not_lt.mpr h1, h2]
  · intro h1 h2
    have hH : (0:ℚ) ≤ HISTERESE := by norm_num [HISTERESE]
    simp [control_heating, not_lt.mpr h1, h2,
      not_lt.mpr (by linarith : target - HISTERESE ≤ t)]
  · intro h1 h2 h3
    simp [control_heating, not_lt.mpr h1, not_lt.mpr h2, not_lt.mpr h3]

/-- C3 witness: the spec's examples at target 100, margin 2 — 97 → ON,
103 → OFF, 99 with previous ON → ON, 99 with previous OFF → OFF, and 351
over the 350 ceiling → OFF with fault for any previous command. -/
theorem control_heating_decision_order_witness :
    control_heating true (some 97) 100 false false = ⟨true, true, true⟩
    ∧ control_heating true (some 103) 100 true true = ⟨false, false, true⟩
    ∧ control_heating true (some 99) 100 true true = ⟨true, true, true⟩
    ∧ control_heating true (some 99) 100 false false = ⟨false, false, true⟩
    ∧ control_heating false (some 351) 200 true true = ⟨false, false, false⟩ := by
  refine ⟨?_, ?_, ?_, ?_, ?_⟩
  · exact (control_heating_decision_order true 100 false false 97).2.2.1
      (by norm_num [MAX_TEMP_SEGURANCA]) (by norm_num [HISTERESE])
  · exact (control_heating_decision_order true 100 true true 103).2.2.2.1
      (by norm_num [MAX_TEMP_SEGURANCA]) (by norm_num [HISTERESE])
  · exact (control_heating_decision_order true 100 true true 99).2.2.2.2
      (by norm_num [MAX_TEMP_SEGURANCA]) (by norm_num [HISTERESE]) (by norm_num [HISTERESE])
  · exact (control_heating_decision_order true 100 false false 99).2.2.2.2
      (by norm_num [MAX_TEMP_SEGURANCA]) (by norm_num [HISTERESE]) (by norm_num [HISTERESE])
  · exact (control_heating_decision_order false 200 true true 351).2.1
      (by norm_num [MAX_TEMP_SEGURANCA])

/-- C1: however the cycle terminates (sensor failure, control fault,
target/timeout breaks, `KeyboardInterrupt`, any other exception, in either
phase), the `finally` block forces the relay line low, the LED off and the
heater flag clear before the terminal report, and the terminal state does
not depend on whether the terminal display update fails. -/
theorem heater_off_on_every_termination (activeHigh : Bool) (s : MainState)
    (sched1 sched2 : List Tick) (dok dRaises : Bool) (s' : MainState) (tr : CycleTrace)
    (h : run_cycle activeHigh s sched1 sched2 dok dRaises = some (s', tr)) :
    s'.relay = false ∧ s'.led = false ∧ s'.heating_active = false
    ∧ run_cycle activeHigh s sched1 sched2 dok true
        = run_cycle activeHigh s sched1 sched2 dok false := by
  have key : ∃ t, s' = (stop_cycle t dok dRaises).1 := by
    rw [run_cycle] at h
    split at h
    · simp at h
    · simp at h
      exact ⟨_, h.1.symm⟩
    · split at h
      · simp at h
      · simp at h
        exact ⟨_, h.1.symm⟩
      · simp at h
        exact ⟨_, h.1.symm⟩
  obtain ⟨t, rfl⟩ := key
  refine ⟨rfl, rfl, rfl, ?_⟩
  rw [run_cycle, run_cycle]
  cases phase1Loop activeHigh (startCycle s) sched1 with
  | out u => rfl
  | exn u => rfl
  | brk e1 u =>
    cases phase2Loop activeHigh u sched2 with
    | out v => rfl
    | exn v => rfl
    | brk e2 v => rfl

/-- C1 witness: a concrete run whose both phases break on sensor faults
(word 4) ends with relay, LED and heater flag off, independent of a raising
display. -/
theorem heater_off_on_every_termination_witness :
    ({ current_temp := some TEMP_AMBIENTE, heating_active := false,
       cycle_active := false, temp_history := [], max_temp_reached := 0,
       relay := false, led := false, target_temp := DEFAULT_TARGET_TEMP,
       duration := DEFAULT_DURATION } : MainState).relay = false
    ∧ ({ current_temp := some TEMP_AMBIENTE, heating_active := false,
         cycle_active := false, temp_history := [], max_temp_reached := 0,
         relay := false, led := false, target_temp := DEFAULT_TARGET_TEMP,
         duration := DEFAULT_DURATION } : MainState).led = false
    ∧ ({ current_temp := some TEMP_AMBIENTE, heating_active := false,
         cycle_active := false, temp_history := [], max_temp_reached := 0,
         relay := false, led := false, target_temp := DEFAULT_TARGET_TEMP,
         duration := DEFAULT_DURATION } : MainState).heating_active = false
    ∧ run_cycle true initMainDefault [⟨0, .reading (.word 4)⟩]
        [⟨0, .reading (.word 4)⟩] true true
      = run_cycle true initMainDefault [⟨0, .reading (.word 4)⟩]
        [⟨0, .reading (.word 4)⟩] true false :=
  heater_off_on_every_termination true initMainDefault
    [⟨0, .reading (.word 4)⟩] [⟨0, .reading (.word 4)⟩] true true
    { current_temp := some TEMP_AMBIENTE, heating_active := false,
      cycle_active := false, temp_history := [], max_temp_reached := 0,
      relay := false, led := false, target_temp := DEFAULT_TARGET_TEMP,
      duration := DEFAULT_DURATION }
    ⟨some .sensorError, true, some .sensorError⟩ rfl

/-- C2 code-bug exhibit: holding 50 °C (word 1600) past the 600 s ramp
timeout makes the phase-1 loop break on the timeout check, after which the
code falls straight into the phase-2 (soak) loop and completes it as a
normal treatment — there is no terminal Aborted state and the Soak phase is
entered. -/
theorem ramp_timeout_enters_phase2 :
    (run_cycle true (initMain 100 300) rampTimeoutSched1 rampTimeoutSched2 true false).map
        (fun p => p.2)
      = some ⟨some .timeout, true, some .done⟩ := by
  have hw1 : (1600:ℕ) &&& 4 = 0 := by decide
  have hw2 : (1600:ℕ) >>> 3 = 200 := by decide
  norm_num [run_cycle, phase1Loop, phase2Loop, rampTimeoutSched1, rampTimeoutSched2,
    read_temperature, decodeWord, applyValidMain, controlHeatingS, control_heating,
    startCycle, stop_cycle, initMain, hw1, hw2,
    TEMP_FILTER_SIZE, TEMP_TOLERANCE, FASE1_TIMEOUT, HISTERESE, MAX_TEMP_SEGURANCA,
    TEMP_AMBIENTE]

/-- C4 code-bug exhibit: four consecutive open-thermocouple acquisitions
(16-bit word `0x4`) from a fresh controller leave `error_count` at 0 — the
fault-decode path never increments it — so `read_temperature_filtered`
keeps returning the stale 25 °C fallback instead of reaching the
threshold and returning `None`. -/
theorem open_thermocouple_fault_run :
    (filteredRun initTC (List.replicate 4 (.exchange faultBits))).1
      = [some TEMP_AMBIENTE, some TEMP_AMBIENTE, some TEMP_AMBIENTE, some TEMP_AMBIENTE]
    ∧ (filteredRun initTC (List.replicate 4 (.exchange faultBits))).2.error_count = 0 := by
  constructor <;> rfl

/-- C5 counterexample: an exception raised partway through the 16-bit
exchange takes the `except` path, which returns with chip-select still at
the asserted (low) level — no `finally` deasserts it. -/
theorem chip_select_exception_asserted :
    (initTC.read_temperature_raw .raise).2.cs = false := rfl

/-- C5 amended: chip-select is deasserted on every exit path of the raw
read that completes the 16-bit exchange — both the valid-word and the
thermocouple-fault decode exits. -/
theorem chip_select_deasserted_on_completed_exchange (s : TCState) (bits : List Bool) :
    (s.read_temperature_raw (.exchange bits)).2.cs = true := by
  rw [TCState.read_temperature_raw]
  cases hd : decodeWord (assembleWord bits) <;> simp [hd]

/-! ### Filter-state lemmas for the moving average and the high-water mark -/

theorem applyValidMain_max (s : MainState) (t : ℚ) :
    (applyValidMain s t).2.max_temp_reached
      = max s.max_temp_reached (applyValidMain s t).1 := by
  rw [applyValidMain]
  by_cases h : s.max_temp_reached <
      ((if (s.temp_history ++ [t]).length > TEMP_FILTER_SIZE
        then (s.temp_history ++ [t]).drop 1
        else s.temp_history ++ [t]).sum /
       ((if (s.temp_history ++ [t]).length > TEMP_FILTER_SIZE
        then (s.temp_history ++ [t]).drop 1
        else s.temp_history ++ [t]).length : ℚ))
  · simp only [gt_iff_lt, if_pos h]
    exact (max_eq_right h.le).symm
  · simp only [gt_iff_lt, if_neg h]
    exact (max_eq_left (not_lt.mp h)).symm

theorem processAll_cons (s : MainState) (t : ℚ) (ts : List ℚ) :
    processAll s (t :: ts) = processAll (applyValidMain s t).2 ts := rfl

theorem processAll_max_eq_foldl (ts : List ℚ) (s : MainState) :
    (processAll s ts).max_temp_reached
      = (outputsMain s ts).foldl max s.max_temp_reached := by
  induction ts generalizing s with
  | nil => rfl
  | cons t ts ih =>
    rw [processAll_cons, ih, outputsMain]
    simp only [List.foldl]
    rw [applyValidMain_max]

theorem le_foldl_max_init (l : List ℚ) (a : ℚ) : a ≤ l.foldl max a := by
  induction l generalizing a with
  | nil => exact le_refl a
  | cons c l ih => exact le_trans (le_max_left a c) (ih (max a c))

theorem le_foldl_max_of_mem {l : List ℚ} {b : ℚ} (a : ℚ) (h : b ∈ l) :
    b ≤ l.foldl max a := by
  induction l generalizing a with
  | nil => cases h
  | cons c l ih =>
    rcases List.mem_cons.mp h with rfl | hb
    · exact le_trans (le_max_right a b) (le_foldl_max_init l (max a b))
    · exact ih (max a c) hb

theorem foldl_max_mem (l : List ℚ) (a : ℚ) :
    l.foldl max a = a ∨ l.foldl max a ∈ l := by
  induction l generalizing a with
  | nil => exact Or.inl rfl
  | cons c l ih =>
    rcases ih (max a c) with h | h
    · rcases max_choice a c with hm | hm
      · exact Or.inl (by rw [List.foldl, h, hm])
      · exact Or.inr (by rw [List.foldl, h, hm]; exact List.mem_cons_self c l)
    · exact Or.inr (List.mem_cons_of_mem c h)

theorem outputsMain_nonneg (ts : List ℚ) (s : MainState)
    (hh : ∀ x ∈ s.temp_history, 0 ≤ x) (hts : ∀ t ∈ ts, 0 ≤ t) :
    ∀ o ∈ outputsMain s ts, 0 ≤ o := by
  induction ts generalizing s with
  | nil => intro o ho; cases ho
  | cons t ts ih =>
    intro o ho
    have hht : ∀ x ∈ s.temp_history ++ [t], 0 ≤ x := by
      intro x hx
      rcases List.mem_append.mp hx with hx | hx
      · exact hh x hx
      · rcases List.mem_singleton.mp hx with rfl
        exact hts x (List.mem_cons_self x ts)
    have hhist : ∀ x ∈ (applyValidMain s t).2.temp_history, 0 ≤ x := by
      intro x hx
      rw [applyValidMain] at hx
      simp only at hx
      by_cases hl : (s.temp_history ++ [t]).length > TEMP_FILTER_SIZE
      · rw [if_pos hl] at hx
        exact hht x (List.drop_subset 1 _ hx)
      · rw [if_neg hl] at hx
        exact hht x hx
    have hout : 0 ≤ (applyValidMain s t).1 := by
      rw [applyValidMain]
      simp only
      apply div_nonneg
      · apply List.sum_nonneg
        intro x hx
        by_cases hl : (s.temp_history ++ [t]).length > TEMP_FILTER_SIZE
        · rw [if_pos hl] at hx
          exact hht x (List.drop_subset 1 _ hx)
        · rw [if_neg hl] at hx
          exact hht x hx
      · exact Nat.cast_nonneg _
    rw [outputsMain] at ho
    simp only [List.mem_cons] at ho
    rcases ho with rfl | ho
    · exact hout
    · exact ih (applyValidMain s t).2 hhist
        (fun x hx => hts x (List.mem_cons_of_mem t hx)) o ho

theorem processAll_max_le (ts : List ℚ) (s : MainState) :
    s.max_temp_reached ≤ (processAll s ts).max_temp_reached := by
  rw [processAll_max_eq_foldl]
  exact le_foldl_max_init _ _

theorem processAll_append (s : MainState) (l1 l2 : List ℚ) :
    processAll s (l1 ++ l2) = processAll (processAll s l1) l2 := by
  rw [processAll, processAll, processAll, List.foldl_append]

theorem foldl_max_zero_mem {l : List ℚ} (hl : l ≠ []) (hnn : ∀ o ∈ l, 0 ≤ o) :
    l.foldl max 0 ∈ l := by
  rcases foldl_max_mem l 0 with h0 | hmem
  · cases l with
    | nil => exact absurd rfl hl
    | cons a l =>
      have ha : a ≤ (a :: l).foldl max 0 := le_foldl_max_of_mem 0 (List.mem_cons_self a l)
      have ha0 : 0 ≤ a := hnn a (List.mem_cons_self a l)
      have haz : a = 0 := le_antisymm (h0 ▸ ha) ha0
      rw [h0, ← haz]
      exact List.mem_cons_self a l
  · exact hmem

theorem outputsMain_ne_nil (s : MainState) (t : ℚ) (ts : List ℚ) :
    outputsMain s (t :: ts) ≠ [] := by
  rw [outputsMain]
  simp

/-- C7: within a cycle the high-water mark starts at 0 (`run_cycle` resets
it), never decreases from step to step, bounds every filtered output
produced so far, and (for a nonempty prefix) is itself one of those outputs
— i.e. after each step it is the maximum of the filtered outputs of the
cycle so far. -/
theorem max_temp_high_water_mark (s : MainState) (ts : List ℚ)
    (hh : ∀ x ∈ s.temp_history, 0 ≤ x) (hts : ∀ t ∈ ts, 0 ≤ t) :
    (startCycle s).max_temp_reached = 0
    ∧ (∀ k, (processAll (startCycle s) (ts.take k)).max_temp_reached
          ≤ (processAll (startCycle s) ts).max_temp_reached)
    ∧ (∀ k, ∀ o ∈ outputsMain (startCycle s) (ts.take k),
          o ≤ (processAll (startCycle s) (ts.take k)).max_temp_reached)
    ∧ (∀ k, ts.take k ≠ [] →
          (processAll (startCycle s) (ts.take k)).max_temp_reached
            ∈ outputsMain (startCycle s) (ts.take k)) := by
  have hh0 : ∀ x ∈ (startCycle s).temp_history, 0 ≤ x := hh
  refine ⟨rfl, ?_, ?_, ?_⟩
  · intro k
    conv_rhs => rw [← List.take_append_drop k ts]
    rw [processAll_append]
    exact processAll_max_le _ _
  · intro k o ho
    rw [processAll_max_eq_foldl]
    exact le_foldl_max_of_mem _ ho
  · intro k hne
    have hnn : ∀ o ∈ outputsMain (startCycle s) (ts.take k), 0 ≤ o :=
      outputsMain_nonneg _ _ hh0 (fun t ht => hts t (List.take_subset k ts ht))
    have hone : outputsMain (startCycle s) (ts.take k) ≠ [] := by
      cases htk : ts.take k with
      | nil => exact absurd htk hne
      | cons a l => exact outputsMain_ne_nil _ a l
    rw [processAll_max_eq_foldl]
    have hz : (startCycle s).max_temp_reached = 0 := rfl
    rw [hz]
    exact foldl_max_zero_mem hone hnn

/-- C7 witness: processing 30 then 20 °C from a fresh cycle gives filtered
outputs 30 and 25, whose maximum 30 is the recorded high-water mark. -/
theorem max_temp_high_water_mark_witness :
    (processAll (startCycle initMainDefault) ([(30:ℚ), 20].take 2)).max_temp_reached
      ∈ outputsMain (startCycle initMainDefault) ([(30:ℚ), 20].take 2) :=
  (max_temp_high_water_mark initMainDefault [30, 20]
    (by intro x hx; cases hx)
    (by intro t ht; simp at ht; rcases ht with rfl | rfl <;> norm_num)).2.2.2
    2 (by simp)

theorem applyValidMain_history (s : MainState) (t : ℚ) :
    (applyValidMain s t).2.temp_history
      = if (s.temp_history ++ [t]).length > TEMP_FILTER_SIZE
        then (s.temp_history ++ [t]).drop 1 else s.temp_history ++ [t] := rfl

theorem applyValidMain_fst (s : MainState) (t : ℚ) :
    (applyValidMain s t).1
      = (if (s.temp_history ++ [t]).length > TEMP_FILTER_SIZE
          then (s.temp_history ++ [t]).drop 1 else s.temp_history ++ [t]).sum
        / ((if (s.temp_history ++ [t]).length > TEMP_FILTER_SIZE
          then (s.temp_history ++ [t]).drop 1 else s.temp_history ++ [t]).length : ℚ) := rfl

theorem processAll_history (ts : List ℚ) (s : MainState)
    (h : s.temp_history.length ≤ TEMP_FILTER_SIZE) :
    (processAll s ts).temp_history
      = (s.temp_history ++ ts).drop ((s.temp_history ++ ts).length - TEMP_FILTER_SIZE) := by
  induction ts generalizing s with
  | nil =>
    rw [processAll]
    simp only [List.foldl, List.append_nil]
    rw [Nat.sub_eq_zero_of_le h, List.drop_zero]
  | cons t ts ih =>
    rw [processAll_cons]
    by_cases hl : (s.temp_history ++ [t]).length > TEMP_FILTER_SIZE
    · have hlen : s.temp_history.length = TEMP_FILTER_SIZE := by
        rw [List.length_append] at hl
        simp at hl
        omega
      have hist' : (applyValidMain s t).2.temp_history = (s.temp_history ++ [t]).drop 1 := by
        rw [applyValidMain_history, if_pos hl]
      have hlen' : (applyValidMain s t).2.temp_history.length = TEMP_FILTER_SIZE := by
        rw [hist', List.length_drop, List.length_append]
        simp
        omega
      rw [ih _ (le_of_eq hlen'), hist']
      have e1 : s.temp_history ++ t :: ts = (s.temp_history ++ [t]) ++ ts := by
        rw [List.append_assoc, List.singleton_append]
      have e2 : ((s.temp_history ++ [t]).drop 1 ++ ts).length - TEMP_FILTER_SIZE = ts.length := by
        rw [List.length_append, List.length_drop, List.length_append]
        simp
        omega
      have e3 : (s.temp_history ++ t :: ts).length - TEMP_FILTER_SIZE = 1 + ts.length := by
        rw [List.length_append]
        simp
        omega
      have key : List.drop 1 ((s.temp_history ++ [t]) ++ ts)
          = List.drop 1 (s.temp_history ++ [t]) ++ ts := by
        apply List.drop_append_of_le_length
        rw [List.length_append]
        simp
      rw [e2, e3, e1, ← List.drop_drop, key]
    · have hlen' : (applyValidMain s t).2.temp_history.length ≤ TEMP_FILTER_SIZE := by
        rw [applyValidMain_history, if_neg hl]
        omega
      rw [ih _ hlen']
      rw [applyValidMain_history, if_neg hl]
      rw [List.append_assoc, List.singleton_append]

theorem processAll_current (ts : List ℚ) (s : MainState) (h : ts ≠ []) :
    (processAll s ts).current_temp
      = some ((processAll s ts).temp_history.sum
          / ((processAll s ts).temp_history.length : ℚ)) := by
  induction ts generalizing s with
  | nil => exact absurd rfl h
  | cons t ts ih =>
    cases ts with
    | nil => rfl
    | cons u ts' =>
      rw [processAll_cons]
      exact ih _ (by simp)

/-- C8: from an empty history, after a nonempty sequence of valid raw
readings the history holds exactly the last `TEMP_FILTER_SIZE` readings
(all of them when there are at most `TEMP_FILTER_SIZE`), and the filtered
value is their arithmetic mean. -/
theorem moving_average_window (ts : List ℚ) (s : MainState)
    (h0 : s.temp_history = []) (hne : ts ≠ []) :
    (processAll s ts).temp_history = ts.drop (ts.length - TEMP_FILTER_SIZE)
    ∧ (processAll s ts).current_temp
        = some ((ts.drop (ts.length - TEMP_FILTER_SIZE)).sum
            / ((ts.drop (ts.length - TEMP_FILTER_SIZE)).length : ℚ))
    ∧ (ts.drop (ts.length - TEMP_FILTER_SIZE)).length = min ts.length TEMP_FILTER_SIZE
    ∧ (ts.length ≤ TEMP_FILTER_SIZE → ts.drop (ts.length - TEMP_FILTER_SIZE) = ts) := by
  have hhist : (processAll s ts).temp_history = ts.drop (ts.length - TEMP_FILTER_SIZE) := by
    have hp := processAll_history ts s (by rw [h0]; norm_num [TEMP_FILTER_SIZE])
    rw [h0] at hp
    simpa using hp
  refine ⟨hhist, ?_, ?_, ?_⟩
  · rw [processAll_current ts s hne, hhist]
  · rw [List.length_drop]
    omega
  · intro hle
    rw [Nat.sub_eq_zero_of_le hle, List.drop_zero]

/-- C8 witness: six readings 1..6 through the window of five give the mean
of the last five, (2+3+4+5+6)/5 = 4. -/
theorem moving_average_window_witness :
    (processAll initMainDefault [1, 2, 3, 4, 5, 6]).current_temp = some 4 := by
  have h := (moving_average_window [1, 2, 3, 4, 5, 6] initMainDefault rfl (by simp)).2.1
  rw [h]
  norm_num [TEMP_FILTER_SIZE]

/-- C9 counterexample: with the polarity flag set active-low, the
over-temperature fail-safe write (`relay.off()`, no polarity translation)
drives the line low, which energizes an active-low relay although the
logical heater command is OFF; the forced-off write of `stop_cycle` behaves
the same way. -/
theorem relay_active_low_not_deenergized :
    (control_heating false (some 351) 100 true true).heating_active = false
    ∧ energized false (control_heating false (some 351) 100 true true).relay = true
    ∧ (stop_cycle (initMain 100 300) true false).1.relay = false
    ∧ energized false (stop_cycle (initMain 100 300) true false).1.relay = true := by
  refine ⟨?_, ?_, rfl, rfl⟩
  · norm_num [control_heating, MAX_TEMP_SEGURANCA]
  · norm_num [control_heating, MAX_TEMP_SEGURANCA, energized]

/-- C9 amended: the two hysteresis branches translate the logical command
through the polarity flag for both polarities (the OFF branch de-energizes
either way); under the shipped `RELAY_ACTIVE_HIGH = true` configuration
every write — both control branches, the fail-safe branches, `stop_cycle`
and `emergency_stop` — leaves the relay energized exactly when the logical
command is ON, hence de-energized whenever it is OFF. -/
theorem relay_polarity_translation (flag : Bool) (t target : ℚ) (pR pH : Bool)
    (s : MainState) (dok dr : Bool) (tc : TCState) :
    (t ≤ MAX_TEMP_SEGURANCA → t < target - HISTERESE →
      (control_heating flag (some t) target pR pH).relay = flag
      ∧ energized flag (control_heating flag (some t) target pR pH).relay = true
      ∧ (control_heating flag (some t) target pR pH).heating_active = true)
    ∧ (t ≤ MAX_TEMP_SEGURANCA → target + HISTERESE < t →
      (control_heating flag (some t) target pR pH).relay = !flag
      ∧ energized flag (control_heating flag (some t) target pR pH).relay = false
      ∧ (control_heating flag (some t) target pR pH).heating_active = false)
    ∧ (∀ c : Option ℚ, energized true pR = pH →
        energized true (control_heating true c target pR pH).relay
          = (control_heating true c target pR pH).heating_active)
    ∧ ((stop_cycle s dok dr).1.relay = false
        ∧ energized RELAY_ACTIVE_HIGH (stop_cycle s dok dr).1.relay = false)
    ∧ (tc.emergency_stop.resistencia = false
        ∧ energized RELAY_ACTIVE_HIGH tc.emergency_stop.resistencia = false) := by
  refine ⟨?_, ?_, ?_, ⟨rfl, rfl⟩, ⟨rfl, rfl⟩⟩
  · intro h1 h2
    simp [control_heating, energized, not_lt.mpr h1, h2]
  · intro h1 h2
    have hH : (0:ℚ) ≤ HISTERESE := by norm_num [HISTERESE]
    simp [control_heating, energized, not_lt.mpr h1, h2,
      not_lt.mpr (by linarith : target - HISTERESE ≤ t)]
  · intro c hc
    cases c with
    | none => simp [control_heating, energized]
    | some u =>
      rw [control_heating]
      split_ifs <;> simp_all [energized]

/-- C9 amended witness: under the active-low flag the ON branch drives the
line low (energized) and the OFF branch drives it high (de-energized). -/
theorem relay_polarity_translation_witness :
    (control_heating false (some 97) 100 false false).relay = false
    ∧ energized false (control_heating false (some 97) 100 false false).relay = true
    ∧ (control_heating false (some 103) 100 false true).relay = true
    ∧ energized false (control_heating false (some 103) 100 false true).relay = false := by
  obtain ⟨hON, -, -, -, -⟩ :=
    relay_polarity_translation false 97 100 false false initMainDefault true true initTC
  obtain ⟨-, hOFF, -, -, -⟩ :=
    relay_polarity_translation false 103 100 false true initMainDefault true true initTC
  have a := hON (by norm_num [MAX_TEMP_SEGURANCA]) (by norm_num [HISTERESE])
  have b := hOFF (by norm_num [MAX_TEMP_SEGURANCA]) (by norm_num [HISTERESE])
  exact ⟨a.1, a.2.1, b.1, b.2.1⟩

/-- C10: cycle start touches only the high-water mark (reset to 0), the
cycle flag and the LED; the moving-average history, the current
temperature, the heater flag, the relay line and the setpoints are
unchanged — so with a full retained history the first reading of the new
cycle averages the `TEMP_FILTER_SIZE − 1` retained pre-cycle samples with
the new one. -/
theorem start_cycle_frame (s : MainState) (t : ℚ)
    (h5 : s.temp_history.length = TEMP_FILTER_SIZE) :
    (startCycle s).temp_history = s.temp_history
    ∧ (startCycle s).current_temp = s.current_temp
    ∧ (startCycle s).heating_active = s.heating_active
    ∧ (startCycle s).relay = s.relay
    ∧ (startCycle s).target_temp = s.target_temp
    ∧ (startCycle s).duration = s.duration
    ∧ (startCycle s).max_temp_reached = 0
    ∧ (startCycle s).cycle_active = true
    ∧ (startCycle s).led = true
    ∧ (applyValidMain (startCycle s) t).2.temp_history = s.temp_history.drop 1 ++ [t]
    ∧ (applyValidMain (startCycle s) t).1
        = (s.temp_history.drop 1 ++ [t]).sum
          / ((s.temp_history.drop 1 ++ [t]).length : ℚ) := by
  have hT5 : TEMP_FILTER_SIZE = 5 := rfl
  have hl : ((startCycle s).temp_history ++ [t]).length > TEMP_FILTER_SIZE := by
    show (s.temp_history ++ [t]).length > TEMP_FILTER_SIZE
    rw [List.length_append]
    simp
    omega
  have hdrop : ((startCycle s).temp_history ++ [t]).drop 1
      = s.temp_history.drop 1 ++ [t] := by
    show (s.temp_history ++ [t]).drop 1 = _
    apply List.drop_append_of_le_length
    omega
  refine ⟨rfl, rfl, rfl, rfl, rfl, rfl, rfl, rfl, rfl, ?_, ?_⟩
  · rw [applyValidMain_history, if_pos hl, hdrop]
  · rw [applyValidMain_fst, if_pos hl, hdrop]

/-- C10 witness: with retained history `[1,2,3,4,5]`, the first reading
(15 °C) of a new cycle averages the four retained samples 2,3,4,5 with 15:
(2+3+4+5+15)/5 = 29/5. -/
theorem start_cycle_frame_witness :
    (applyValidMain (startCycle
        { initMainDefault with temp_history := [(1:ℚ), 2, 3, 4, 5] }) 15).1 = 29/5 := by
  have h := (start_cycle_frame
    { initMainDefault with temp_history := [(1:ℚ), 2, 3, 4, 5] } 15 rfl).2.2.2.2.2.2.2.2.2.2
  rw [h]
  norm_num

end Furnace
